import Mathlib

/-!
Verification of the packet-decoding core of the `f1-api` crate.

The development shallowly embeds the two source files `src/packet.rs` and
`src/packet/header.rs`: the byte cursor (`std::io::Cursor` over a `BytesMut`
buffer, with the `bytes::Buf` operations used by the code), the size guard
`ensure_packet_size`, the test decoder `decode_packet` from the unit tests of
`packet.rs`, and the header data model (`ApiSpec`, `PacketType`, `GameVersion`,
`Header`) together with their derived `PartialEq`/`Eq`/`Ord`/`Default`
implementations and their `Display` implementations.

Machine integers (`u8`, `u32`, `u64`, `usize`) are modelled by their numeric
values as `Nat`; none of the verified operations overflows or wraps.
Rust's `Display` formatting of an unsigned integer (decimal digits, no sign,
no leading zeros) is modelled by `natToString` below.
-/

namespace F1

/-! Decimal formatting of unsigned integers.

Model of Rust's `Display` for unsigned integers as used by `format!("{}", n)`:
the decimal digit string of the value, most significant digit first. -/

/-- The ASCII digit character for a value `n < 10` (code `48 + n`). -/
def digitChar (n : Nat) : Char := Char.ofNat (48 + n)

/-- Decimal digit list of `n`, most significant first: model of Rust's
decimal `Display` for unsigned integers. -/
def natDigits (n : Nat) : List Char :=
  if n < 10 then [digitChar n]
  else natDigits (n / 10) ++ [digitChar (n % 10)]
termination_by n
decreasing_by exact Nat.div_lt_self (by omega) (by omega)

/-- Decimal rendering of `n` as a string (model of `format!("{}", n)`). -/
def natToString (n : Nat) : String := String.mk (natDigits n)

/-- Numeric value of a digit list (left fold, base 10); inverse of `natDigits`. -/
def digitsVal (cs : List Char) : Nat :=
  cs.foldl (fun a c => 10 * a + (c.toNat - 48)) 0

/-- A character is an ASCII decimal digit. -/
def IsDigitCh (c : Char) : Prop := 48 ≤ c.toNat ∧ c.toNat ≤ 57

instance (c : Char) : Decidable (IsDigitCh c) := by
  unfold IsDigitCh; infer_instance

theorem toNat_digitChar {n : Nat} (h : n < 10) : (digitChar n).toNat = 48 + n := by
  interval_cases n <;> decide

theorem digitsVal_append_singleton (xs : List Char) (c : Char) :
    digitsVal (xs ++ [c]) = 10 * digitsVal xs + (c.toNat - 48) := by
  unfold digitsVal
  rw [List.foldl_append]
  rfl

theorem digitsVal_natDigits (n : Nat) : digitsVal (natDigits n) = n := by
  induction n using Nat.strong_induction_on with
  | _ n ih =>
    rw [natDigits]
    by_cases h : n < 10
    · simp only [if_pos h]
      show digitsVal [digitChar n] = n
      unfold digitsVal
      simp [List.foldl, toNat_digitChar h]
    · simp only [if_neg h]
      rw [digitsVal_append_singleton]
      rw [ih (n / 10) (Nat.div_lt_self (by omega) (by omega))]
      rw [toNat_digitChar (Nat.mod_lt n (by omega))]
      omega

theorem natDigits_inj {m n : Nat} (h : natDigits m = natDigits n) : m = n := by
  have hm := digitsVal_natDigits m
  have hn := digitsVal_natDigits n
  rw [h] at hm
  omega

theorem natDigits_digits (n : Nat) : ∀ c ∈ natDigits n, IsDigitCh c := by
  induction n using Nat.strong_induction_on with
  | _ n ih =>
    rw [natDigits]
    by_cases h : n < 10
    · simp only [if_pos h]
      intro c hc
      rw [List.mem_singleton] at hc
      subst hc
      constructor
      · rw [toNat_digitChar h]; omega
      · rw [toNat_digitChar h]; omega
    · simp only [if_neg h]
      intro c hc
      rw [List.mem_append] at hc
      rcases hc with hc | hc
      · exact ih (n / 10) (Nat.div_lt_self (by omega) (by omega)) c hc
      · rw [List.mem_singleton] at hc
        subst hc
        have hm : n % 10 < 10 := Nat.mod_lt n (by omega)
        constructor
        · rw [toNat_digitChar hm]; omega
        · rw [toNat_digitChar hm]; omega

/-- A digit-only block followed by a non-digit delimiter is parsed back
uniquely: if two such concatenations agree, so do their parts. -/
theorem digits_block_unique :
    ∀ (xs ys t u : List Char),
      (∀ c ∈ xs, IsDigitCh c) → (∀ c ∈ ys, IsDigitCh c) →
      (∀ c, t.head? = some c → ¬ IsDigitCh c) →
      (∀ c, u.head? = some c → ¬ IsDigitCh c) →
      xs ++ t = ys ++ u → xs = ys ∧ t = u := by
  intro xs
  induction xs with
  | nil =>
    intro ys t u _ hys ht _ heq
    cases ys with
    | nil => exact ⟨rfl, heq⟩
    | cons y ys =>
      exfalso
      simp only [List.nil_append, List.cons_append] at heq
      subst heq
      exact ht y rfl (hys y (List.mem_cons_self y ys))
  | cons x xs ihx =>
    intro ys t u hxs hys ht hu heq
    cases ys with
    | nil =>
      exfalso
      simp only [List.cons_append, List.nil_append] at heq
      subst heq
      exact hu x rfl (hxs x (List.mem_cons_self x xs))
    | cons y ys =>
      simp only [List.cons_append, List.cons.injEq] at heq
      obtain ⟨hxy, heq'⟩ := heq
      have hrest := ihx ys t u (fun c hc => hxs c (List.mem_cons_of_mem x hc))
        (fun c hc => hys c (List.mem_cons_of_mem y hc)) ht hu heq'
      exact ⟨by rw [hxy, hrest.1], hrest.2⟩

/-! Byte cursor and I/O error model (`std::io`, `bytes`).

`Cursor<&mut BytesMut>` is a byte buffer with a read position; the `bytes::Buf`
implementation gives `remaining()` (length minus position, saturating) and
`get_u8()` (read the byte at the position and advance by one; panics when no
byte remains). -/

/-- Model of `std::io::Cursor` over a `BytesMut` buffer: the buffer's bytes and the
current read position. -/
structure ByteCursor where
  buf : List Nat
  pos : Nat
deriving DecidableEq, Repr

/-- Embedding of `Buf::remaining()`: bytes not yet consumed (saturating subtraction). -/
def ByteCursor.remaining (c : ByteCursor) : Nat := c.buf.length - c.pos

/-- Embedding of `Buf::get_u8()`: read the byte at the current position and advance the
position by one; `none` models the panic raised when no byte remains. -/
def ByteCursor.get_u8 (c : ByteCursor) : Option (Nat × ByteCursor) :=
  match c.buf[c.pos]? with
  | some b => some (b, ⟨c.buf, c.pos + 1⟩)
  | none => none

/-- The `std::io::ErrorKind` values used by the code. -/
inductive ErrorKind where
  | unexpectedEof
deriving DecidableEq, Repr

/-- Model of `std::io::Error`: an error kind plus a human-readable message string. -/
structure IoError where
  kind : ErrorKind
  message : String
deriving DecidableEq, Repr

/-! Embedding of `src/packet.rs`: the size guard and the test decoder. -/

/-- The message built by `ensure_packet_size` via `format!`:
`"Packet is expected to have a size of {} bytes, but was {}."`. -/
def insufficientDataMessage (expected actual : Nat) : String :=
  "Packet is expected to have a size of " ++ natToString expected ++
    " bytes, but was " ++ natToString actual ++ "."

/-- Embedding of `ensure_packet_size(expected_size, cursor)`: returns an `UnexpectedEof`
error when fewer bytes remain than expected, and `Ok(())` otherwise. The Rust
function takes the cursor by mutable reference, so the embedding returns the
cursor state alongside the result. -/
def ensure_packet_size (expected_size : Nat) (cursor : ByteCursor) :
    Except IoError Unit × ByteCursor :=
  if cursor.remaining < expected_size then
    (Except.error
      ⟨ErrorKind.unexpectedEof,
        insufficientDataMessage expected_size cursor.remaining⟩,
      cursor)
  else
    (Except.ok (), cursor)

/-- The `PACKET_SIZE` constant of the test decoder in `packet.rs`. -/
def PACKET_SIZE : Nat := 1

/-- The test module's `Packet { counter: u8 }`. -/
structure TestPacket where
  counter : Nat
deriving DecidableEq, Repr

/-- The test module's `decode_packet`: run the size guard for `PACKET_SIZE`,
then read one byte as the counter. The `none` branch of `get_u8` models the
panic of `Buf::get_u8` on an empty buffer; it is unreachable after a
successful size guard. -/
def decode_packet (cursor : ByteCursor) : Except IoError TestPacket × ByteCursor :=
  match ensure_packet_size PACKET_SIZE cursor with
  | (Except.error e, c) => (Except.error e, c)
  | (Except.ok _, c) =>
    match c.get_u8 with
    | some (b, c') => (Except.ok ⟨b⟩, c')
    | none => (Except.error ⟨ErrorKind.unexpectedEof, "advance out of bounds"⟩, c)

/-- The two byte counts in an insufficient-data message are recoverable: the
message determines both the expected and the actual count. -/
theorem insufficientDataMessage_inj {e r e' r' : Nat}
    (h : insufficientDataMessage e r = insufficientDataMessage e' r') :
    e = e' ∧ r = r' := by
  unfold insufficientDataMessage natToString at h
  have hdata := congrArg String.data h
  simp only [String.data_append] at hdata
  have hpre : ("Packet is expected to have a size of " : String).data ++
      (natDigits e ++ ((" bytes, but was " : String).data ++ (natDigits r ++ ("." : String).data))) =
      ("Packet is expected to have a size of " : String).data ++
      (natDigits e' ++ ((" bytes, but was " : String).data ++ (natDigits r' ++ ("." : String).data))) := by
    simpa [List.append_assoc] using hdata
  have h1 := List.append_cancel_left hpre
  have hmid : ∀ c : Char,
      ((" bytes, but was " : String).data ++ (natDigits r ++ ("." : String).data)).head? = some c →
      ¬ IsDigitCh c := by
    intro c hc hdig
    have : ' ' = c := by
      simpa using hc
    subst this
    exact absurd hdig (by decide)
  have hmid' : ∀ c : Char,
      ((" bytes, but was " : String).data ++ (natDigits r' ++ ("." : String).data)).head? = some c →
      ¬ IsDigitCh c := by
    intro c hc hdig
    have : ' ' = c := by
      simpa using hc
    subst this
    exact absurd hdig (by decide)
  have hsplit := digits_block_unique (natDigits e) (natDigits e') _ _
    (natDigits_digits e) (natDigits_digits e') hmid hmid' h1
  have he : e = e' := natDigits_inj hsplit.1
  have h2 := List.append_cancel_left hsplit.2
  have hdot : ∀ c : Char, (("." : String).data).head? = some c → ¬ IsDigitCh c := by
    intro c hc hdig
    have : '.' = c := by
      simpa using hc
    subst this
    exact absurd hdig (by decide)
  have hsplit2 := digits_block_unique (natDigits r) (natDigits r') _ _
    (natDigits_digits r) (natDigits_digits r') hdot hdot h2
  exact ⟨he, natDigits_inj hsplit2.1⟩

/-! Embedding of `src/packet/header.rs`: the header data model.

Rust's derived `Ord` compares enum variants by declaration order and struct
fields lexicographically in declaration order; each derived comparison is
embedded as an explicit `cmp` function returning `Ordering`. -/

/-- The `ApiSpec` enum: supported API specifications. -/
inductive ApiSpec where
  | Nineteen
deriving DecidableEq, Repr

/-- Derived `Ord` for `ApiSpec` (a single variant always compares equal). -/
def ApiSpec.cmp : ApiSpec → ApiSpec → Ordering
  | .Nineteen, .Nineteen => .eq

/-- The `PacketType` enum, variants in declaration order. -/
inductive PacketType where
  | Event
  | Lap
  | Motion
  | Participants
  | Session
  | Setup
  | Status
  | Telemetry
deriving DecidableEq, Repr

/-- Discriminant of a `PacketType` variant (declaration order). -/
def PacketType.discriminant : PacketType → Nat
  | .Event => 0
  | .Lap => 1
  | .Motion => 2
  | .Participants => 3
  | .Session => 4
  | .Setup => 5
  | .Status => 6
  | .Telemetry => 7

/-- Derived `Ord` for `PacketType`: compare discriminants. -/
def PacketType.cmp (a b : PacketType) : Ordering :=
  compare a.discriminant b.discriminant

/-- The `GameVersion` struct: `major` and `minor` are `u8` values, modelled
by their numeric value. -/
structure GameVersion where
  major : Nat
  minor : Nat
deriving DecidableEq, Repr

/-- Derived `Ord` for `GameVersion`: `major` first, then `minor`. -/
def GameVersion.cmp (a b : GameVersion) : Ordering :=
  (compare a.major b.major).then (compare a.minor b.minor)

/-- Derived `Default` for `GameVersion`: both `u8` fields default to `0`. -/
def GameVersion.default : GameVersion := ⟨0, 0⟩

/-- Embedding of `Display` for `GameVersion`: `format!("{}.{}", major, minor)`. -/
def GameVersion.display (v : GameVersion) : String :=
  natToString v.major ++ "." ++ natToString v.minor

/-- Model of `std::time::Duration`: whole seconds (`u64`) and a nanosecond part
(`u32`), compared lexicographically by its derived `Ord`. -/
structure Duration where
  secs : Nat
  nanos : Nat
deriving DecidableEq, Repr

/-- Embedding of `Duration::as_secs()`: the whole-second part. -/
def Duration.as_secs (d : Duration) : Nat := d.secs

/-- Derived `Ord` for `Duration`: seconds first, then nanoseconds. -/
def Duration.cmp (a b : Duration) : Ordering :=
  (compare a.secs b.secs).then (compare a.nanos b.nanos)

/-- Modelled from the spec: `crate::types::VehicleIndex` is declared outside
the shown sources; the spec describes `player_car_index` as an index into
fixed-size per-vehicle arrays, so it is modelled as a natural number with
numeric ordering and decimal display. -/
abbrev VehicleIndex := Nat

/-- Derived `Ord` for `Option<GameVersion>` as used by the `game_version`
field: `None` sorts before `Some`, and two `Some`s compare their contents. -/
def optCmp (c : α → α → Ordering) : Option α → Option α → Ordering
  | none, none => .eq
  | none, some _ => .lt
  | some _, none => .gt
  | some a, some b => c a b

/-- The `Header` struct, fields in declaration order. The `getset` accessors
return the stored field values and are embedded as the field projections. -/
structure Header where
  api_spec : ApiSpec
  game_version : Option GameVersion
  packet_type : PacketType
  session_uid : Nat
  session_time : Duration
  frame_identifier : Nat
  player_car_index : VehicleIndex
deriving DecidableEq, Repr

/-- Derived `Ord` for `Header`: lexicographic in field declaration order. -/
def Header.cmp (a b : Header) : Ordering :=
  (ApiSpec.cmp a.api_spec b.api_spec).then <|
    (optCmp GameVersion.cmp a.game_version b.game_version).then <|
      (PacketType.cmp a.packet_type b.packet_type).then <|
        (compare a.session_uid b.session_uid).then <|
          (Duration.cmp a.session_time b.session_time).then <|
            (compare a.frame_identifier b.frame_identifier).then
              (compare a.player_car_index b.player_car_index)

/-- Embedding of `Display` for `Header`: formats the optional game version (or `"None"`),
the session uid, `session_time.as_secs()` followed by `"s"`, the frame
identifier, and the player car index. -/
def Header.display (h : Header) : String :=
  let game_version :=
    match h.game_version with
    | some version => version.display
    | none => "None"
  "Header \x7b game_version: " ++ game_version ++ ", session: " ++
    natToString h.session_uid ++ ", time: " ++
    natToString h.session_time.as_secs ++ "s, frame: " ++
    natToString h.frame_identifier ++ ", player_car_index: " ++
    natToString h.player_car_index ++ " \x7d"

/-! Lawfulness of the derived comparisons.

The derived `Ord` implementations are proved to be total orders via three
properties of a comparator: it reflects equality, it is antisymmetric under
`Ordering.swap`, and its strict part is transitive. -/

/-- The comparator returns `eq` exactly on equal arguments. -/
def CmpEqIff (cmp : α → α → Ordering) : Prop :=
  ∀ a b, cmp a b = .eq ↔ a = b

/-- Swapping the arguments swaps the comparison result. -/
def CmpSwap (cmp : α → α → Ordering) : Prop :=
  ∀ a b, (cmp a b).swap = cmp b a

/-- The strict part of the comparator is transitive. -/
def CmpLtTrans (cmp : α → α → Ordering) : Prop :=
  ∀ a b c, cmp a b = .lt → cmp b c = .lt → cmp a c = .lt

theorem orderingSwapThen (x y : Ordering) :
    (x.then y).swap = x.swap.then y.swap := by
  cases x <;> cases y <;> rfl

theorem orderingThenEqLt (x y : Ordering) :
    x.then y = .lt ↔ x = .lt ∨ (x = .eq ∧ y = .lt) := by
  cases x <;> simp [Ordering.then]

theorem orderingThenEqEq (x y : Ordering) :
    x.then y = .eq ↔ x = .eq ∧ y = .eq := by
  cases x <;> simp [Ordering.then]

theorem natCompare_eqIff : CmpEqIff (compare : Nat → Nat → Ordering) :=
  fun _ _ => Nat.compare_eq_eq

theorem natCompare_swap : CmpSwap (compare : Nat → Nat → Ordering) :=
  fun a b => Nat.compare_swap a b

theorem natCompare_ltTrans : CmpLtTrans (compare : Nat → Nat → Ordering) :=
  fun _ _ _ h1 h2 =>
    Nat.compare_eq_lt.2 (Nat.lt_trans (Nat.compare_eq_lt.1 h1) (Nat.compare_eq_lt.1 h2))

/-- Lexicographic combination of two comparators on a product. -/
def prodCmp (ca : α → α → Ordering) (cb : β → β → Ordering) (p q : α × β) : Ordering :=
  (ca p.1 q.1).then (cb p.2 q.2)

theorem prodCmp_eqIff {ca : α → α → Ordering} {cb : β → β → Ordering}
    (ha : CmpEqIff ca) (hb : CmpEqIff cb) : CmpEqIff (prodCmp ca cb) := by
  intro p q
  unfold prodCmp
  rw [orderingThenEqEq, ha, hb, Prod.ext_iff]

theorem prodCmp_swap {ca : α → α → Ordering} {cb : β → β → Ordering}
    (ha : CmpSwap ca) (hb : CmpSwap cb) : CmpSwap (prodCmp ca cb) := by
  intro p q
  unfold prodCmp
  rw [orderingSwapThen, ha, hb]

theorem prodCmp_ltTrans {ca : α → α → Ordering} {cb : β → β → Ordering}
    (haE : CmpEqIff ca) (haT : CmpLtTrans ca) (hbT : CmpLtTrans cb) :
    CmpLtTrans (prodCmp ca cb) := by
  intro p q r h1 h2
  unfold prodCmp at h1 h2 ⊢
  rw [orderingThenEqLt] at h1 h2 ⊢
  rcases h1 with h1 | ⟨h1e, h1b⟩
  · rcases h2 with h2 | ⟨h2e, h2b⟩
    · exact Or.inl (haT _ _ _ h1 h2)
    · have : q.1 = r.1 := (haE _ _).1 h2e
      rw [← this]
      exact Or.inl h1
  · rcases h2 with h2 | ⟨h2e, h2b⟩
    · have : p.1 = q.1 := (haE _ _).1 h1e
      rw [this]
      exact Or.inl h2
    · have hpq : p.1 = q.1 := (haE _ _).1 h1e
      have hqr : q.1 = r.1 := (haE _ _).1 h2e
      refine Or.inr ⟨(haE _ _).2 (hpq.trans hqr), hbT _ _ _ h1b h2b⟩

theorem byKey_eqIff {d : α → α → Ordering} (f : γ → α)
    (hf : Function.Injective f) (hd : CmpEqIff d) :
    CmpEqIff (fun a b => d (f a) (f b)) := by
  intro a b
  rw [hd]
  exact ⟨fun h => hf h, fun h => by rw [h]⟩

theorem byKey_swap {d : α → α → Ordering} (f : γ → α) (hd : CmpSwap d) :
    CmpSwap (fun a b => d (f a) (f b)) :=
  fun a b => hd (f a) (f b)

theorem byKey_ltTrans {d : α → α → Ordering} (f : γ → α) (hd : CmpLtTrans d) :
    CmpLtTrans (fun a b => d (f a) (f b)) :=
  fun a b c => hd (f a) (f b) (f c)

theorem optCmp_eqIff {c : α → α → Ordering} (hc : CmpEqIff c) :
    CmpEqIff (optCmp c) := by
  intro a b
  cases a <;> cases b <;> simp [optCmp, hc _ _]

theorem optCmp_swap {c : α → α → Ordering} (hc : CmpSwap c) :
    CmpSwap (optCmp c) := by
  intro a b
  cases a <;> cases b <;> first | rfl | exact hc _ _

theorem optCmp_ltTrans {c : α → α → Ordering} (hc : CmpLtTrans c) :
    CmpLtTrans (optCmp c) := by
  intro a b c' h1 h2
  cases a <;> cases b <;> cases c' <;> simp_all [optCmp]
  exact hc _ _ _ h1 h2

/-- The field tuple of a `GameVersion`. -/
def GameVersion.key (v : GameVersion) : Nat × Nat := (v.major, v.minor)

theorem gameVersion_key_inj : Function.Injective GameVersion.key := by
  intro a b h
  cases a
  cases b
  simpa [GameVersion.key] using h

theorem gameVersion_cmp_eqIff : CmpEqIff GameVersion.cmp :=
  byKey_eqIff GameVersion.key gameVersion_key_inj
    (prodCmp_eqIff natCompare_eqIff natCompare_eqIff)

theorem gameVersion_cmp_swap : CmpSwap GameVersion.cmp :=
  byKey_swap GameVersion.key (prodCmp_swap natCompare_swap natCompare_swap)

theorem gameVersion_cmp_ltTrans : CmpLtTrans GameVersion.cmp :=
  byKey_ltTrans GameVersion.key
    (prodCmp_ltTrans natCompare_eqIff natCompare_ltTrans natCompare_ltTrans)

theorem apiSpec_cmp_eqIff : CmpEqIff ApiSpec.cmp := by
  intro a b
  cases a
  cases b
  simp [ApiSpec.cmp]

theorem apiSpec_cmp_swap : CmpSwap ApiSpec.cmp := by
  intro a b
  cases a
  cases b
  rfl

theorem apiSpec_cmp_ltTrans : CmpLtTrans ApiSpec.cmp := by
  intro a b c h1 _
  cases a
  cases b
  simp [ApiSpec.cmp] at h1

theorem packetType_discriminant_inj : Function.Injective PacketType.discriminant := by
  intro a b h
  cases a <;> cases b <;> simp_all [PacketType.discriminant]

theorem packetType_cmp_eqIff : CmpEqIff PacketType.cmp :=
  byKey_eqIff PacketType.discriminant packetType_discriminant_inj natCompare_eqIff

theorem packetType_cmp_swap : CmpSwap PacketType.cmp :=
  byKey_swap PacketType.discriminant natCompare_swap

theorem packetType_cmp_ltTrans : CmpLtTrans PacketType.cmp :=
  byKey_ltTrans PacketType.discriminant natCompare_ltTrans

/-- The field tuple of a `Duration`. -/
def Duration.key (d : Duration) : Nat × Nat := (d.secs, d.nanos)

theorem duration_key_inj : Function.Injective Duration.key := by
  intro a b h
  cases a
  cases b
  simpa [Duration.key] using h

theorem duration_cmp_eqIff : CmpEqIff Duration.cmp :=
  byKey_eqIff Duration.key duration_key_inj
    (prodCmp_eqIff natCompare_eqIff natCompare_eqIff)

theorem duration_cmp_swap : CmpSwap Duration.cmp :=
  byKey_swap Duration.key (prodCmp_swap natCompare_swap natCompare_swap)

theorem duration_cmp_ltTrans : CmpLtTrans Duration.cmp :=
  byKey_ltTrans Duration.key
    (prodCmp_ltTrans natCompare_eqIff natCompare_ltTrans natCompare_ltTrans)

/-- The field tuple of a `Header`, right-nested in declaration order. -/
def Header.key (h : Header) :
    ApiSpec × Option GameVersion × PacketType × Nat × Duration × Nat × Nat :=
  (h.api_spec, h.game_version, h.packet_type, h.session_uid, h.session_time,
    h.frame_identifier, h.player_car_index)

theorem header_key_inj : Function.Injective Header.key := by
  intro a b h
  cases a
  cases b
  simpa [Header.key] using h

/-- The tuple comparator matching `Header.cmp` through `Header.key`. -/
def headerKeyCmp :
    (ApiSpec × Option GameVersion × PacketType × Nat × Duration × Nat × Nat) →
    (ApiSpec × Option GameVersion × PacketType × Nat × Duration × Nat × Nat) →
    Ordering :=
  prodCmp ApiSpec.cmp <|
    prodCmp (optCmp GameVersion.cmp) <|
      prodCmp PacketType.cmp <|
        prodCmp compare <|
          prodCmp Duration.cmp <|
            prodCmp compare compare

theorem header_cmp_eq_keyCmp (a b : Header) :
    Header.cmp a b = headerKeyCmp (Header.key a) (Header.key b) := rfl

theorem headerKeyCmp_eqIff : CmpEqIff headerKeyCmp :=
  prodCmp_eqIff apiSpec_cmp_eqIff <|
    prodCmp_eqIff (optCmp_eqIff gameVersion_cmp_eqIff) <|
      prodCmp_eqIff packetType_cmp_eqIff <|
        prodCmp_eqIff natCompare_eqIff <|
          prodCmp_eqIff duration_cmp_eqIff <|
            prodCmp_eqIff natCompare_eqIff natCompare_eqIff

theorem header_cmp_eqIff : CmpEqIff Header.cmp :=
  byKey_eqIff Header.key header_key_inj headerKeyCmp_eqIff

theorem header_cmp_swap : CmpSwap Header.cmp :=
  byKey_swap Header.key <|
    prodCmp_swap apiSpec_cmp_swap <|
      prodCmp_swap (optCmp_swap gameVersion_cmp_swap) <|
        prodCmp_swap packetType_cmp_swap <|
          prodCmp_swap natCompare_swap <|
            prodCmp_swap duration_cmp_swap <|
              prodCmp_swap natCompare_swap natCompare_swap

theorem header_cmp_ltTrans : CmpLtTrans Header.cmp :=
  byKey_ltTrans Header.key <|
    prodCmp_ltTrans apiSpec_cmp_eqIff apiSpec_cmp_ltTrans <|
      prodCmp_ltTrans (optCmp_eqIff gameVersion_cmp_eqIff)
          (optCmp_ltTrans gameVersion_cmp_ltTrans) <|
        prodCmp_ltTrans packetType_cmp_eqIff packetType_cmp_ltTrans <|
          prodCmp_ltTrans natCompare_eqIff natCompare_ltTrans <|
            prodCmp_ltTrans duration_cmp_eqIff duration_cmp_ltTrans <|
              prodCmp_ltTrans natCompare_eqIff natCompare_ltTrans natCompare_ltTrans

/-- Evaluation of `natDigits` on a single-digit value. -/
theorem natDigits_small {n : Nat} (h : n < 10) : natDigits n = [digitChar n] := by
  rw [natDigits, if_pos h]

/-! Claims. -/

/-- C1: for every expected size `e` and every cursor whose remaining byte
count is `r`, `ensure_packet_size e cursor` returns success if and only if
`r ≥ e`, and returns an error otherwise. -/
theorem C1_ensure_packet_size_success_iff (e : Nat) (c : ByteCursor) :
    ((ensure_packet_size e c).1 = Except.ok () ↔ e ≤ c.remaining) ∧
    ((∃ err, (ensure_packet_size e c).1 = Except.error err) ↔ c.remaining < e) := by
  unfold ensure_packet_size
  by_cases h : c.remaining < e
  · rw [if_pos h]
    constructor
    · simp
      omega
    · simp
      omega
  · rw [if_neg h]
    constructor
    · simp
      omega
    · simp
      omega

/-- C2: `ensure_packet_size` leaves the cursor state (and hence its position
and remaining byte count) unchanged, whether it succeeds or fails. -/
theorem C2_ensure_packet_size_frame (e : Nat) (c : ByteCursor) :
    (ensure_packet_size e c).2 = c := by
  unfold ensure_packet_size
  split <;> rfl

/-- C4: when fewer bytes remain than expected, the error returned by
`ensure_packet_size` is the `UnexpectedEof` error whose message is built from
the expected and actual byte counts, and that message determines both counts
(they are recoverable from the error's context). -/
theorem C4_error_reports_both_counts :
    (∀ (e : Nat) (c : ByteCursor), c.remaining < e →
      (ensure_packet_size e c).1 =
        Except.error
          ⟨ErrorKind.unexpectedEof, insufficientDataMessage e c.remaining⟩) ∧
    (∀ e r e' r' : Nat,
      insufficientDataMessage e r = insufficientDataMessage e' r' →
        e = e' ∧ r = r') := by
  constructor
  · intro e c h
    unfold ensure_packet_size
    rw [if_pos h]
  · intro e r e' r' h
    exact insufficientDataMessage_inj h

theorem C4_witness :
    (ensure_packet_size 1 ⟨[], 0⟩).1 =
      Except.error ⟨ErrorKind.unexpectedEof, insufficientDataMessage 1 0⟩ ∧
    (7 = 7 ∧ 3 = 3) :=
  ⟨C4_error_reports_both_counts.1 1 ⟨[], 0⟩ (by decide),
    C4_error_reports_both_counts.2 7 3 7 3 rfl⟩

/-- C5: the test decoder (size guard with expected size `1`, then one byte
read) decodes the buffer `[0x00]` successfully, preserving the byte `0x00`,
and fails on the empty buffer with the insufficient-data error reporting
`expected = 1` and `actual = 0`. -/
theorem C5_decode_scenarios :
    decode_packet ⟨[0], 0⟩ = (Except.ok ⟨0⟩, ⟨[0], 1⟩) ∧
    decode_packet ⟨[], 0⟩ =
      (Except.error ⟨ErrorKind.unexpectedEof, insufficientDataMessage 1 0⟩,
        ⟨[], 0⟩) := by
  constructor <;> rfl

/-- C6: decoding is deterministic: on equal initial cursor states (equal
buffers and positions) the decode operation yields identical results. -/
theorem C6_decode_deterministic (c1 c2 : ByteCursor) (h : c1 = c2) :
    decode_packet c1 = decode_packet c2 := by
  rw [h]

theorem C6_witness :
    decode_packet ⟨[0], 0⟩ = decode_packet ⟨[0], 0⟩ :=
  C6_decode_deterministic ⟨[0], 0⟩ ⟨[0], 0⟩ rfl

/-- C3: `GameVersion` values are totally ordered (equality is reflected,
swapping arguments swaps the result, and the strict part is transitive), the
major component is compared first and the minor component only on equal
majors, versions `(1,5) < (1,9) < (2,0)`, and two values compare equal
exactly when both components are equal. -/
theorem C3_gameVersion_total_order :
    (∀ a b : GameVersion, GameVersion.cmp a b = .eq ↔ a = b) ∧
    (∀ a b : GameVersion, (GameVersion.cmp a b).swap = GameVersion.cmp b a) ∧
    (∀ a b c : GameVersion,
      GameVersion.cmp a b = .lt → GameVersion.cmp b c = .lt →
        GameVersion.cmp a c = .lt) ∧
    (∀ a b : GameVersion, compare a.major b.major ≠ .eq →
      GameVersion.cmp a b = compare a.major b.major) ∧
    (∀ a b : GameVersion, a.major = b.major →
      GameVersion.cmp a b = compare a.minor b.minor) ∧
    GameVersion.cmp ⟨1, 5⟩ ⟨1, 9⟩ = .lt ∧
    GameVersion.cmp ⟨1, 9⟩ ⟨2, 0⟩ = .lt := by
  refine ⟨gameVersion_cmp_eqIff, gameVersion_cmp_swap, gameVersion_cmp_ltTrans,
    ?_, ?_, ?_, ?_⟩
  · intro a b h
    unfold GameVersion.cmp
    rcases hcmp : compare a.major b.major with _ | _ | _
    · rfl
    · exact absurd hcmp h
    · rfl
  · intro a b h
    unfold GameVersion.cmp
    rw [(natCompare_eqIff a.major b.major).2 h]
    rfl
  · decide
  · decide

theorem C3_witness :
    compare (1 : Nat) 2 ≠ .eq ∧
    GameVersion.cmp ⟨1, 5⟩ ⟨2, 0⟩ = compare 1 2 ∧
    GameVersion.cmp ⟨1, 5⟩ ⟨1, 9⟩ = compare 5 9 :=
  ⟨by decide, C3_gameVersion_total_order.2.2.2.1 ⟨1, 5⟩ ⟨2, 0⟩ (by decide),
    C3_gameVersion_total_order.2.2.2.2.1 ⟨1, 5⟩ ⟨1, 9⟩ rfl⟩

/-- C7: a `Header` stores `session_time` at full `Duration` precision — the
accessor returns the full stored value — while the `Display` formatting
depends on `session_time` only through its whole-second part `as_secs()`
(changing the nanosecond part never changes the rendering, so only the
display truncates). -/
theorem C7_session_time_precision :
    (∀ (a : ApiSpec) (g : Option GameVersion) (p : PacketType) (u : Nat)
        (t : Duration) (f : Nat) (i : VehicleIndex),
      (Header.mk a g p u t f i).session_time = t) ∧
    (∀ (h : Header) (n : Nat),
      Header.display { h with session_time := ⟨h.session_time.secs, n⟩ } =
        Header.display h) ∧
    (∃ h1 h2 : Header, h1.session_time ≠ h2.session_time ∧
      Header.display h1 = Header.display h2) := by
  refine ⟨fun _ _ _ _ _ _ _ => rfl, fun _ _ => rfl, ?_⟩
  exact ⟨⟨.Nineteen, none, .Event, 0, ⟨0, 0⟩, 0, 0⟩,
    ⟨.Nineteen, none, .Event, 0, ⟨0, 1⟩, 0, 0⟩, by decide, rfl⟩

/-- C8: the `Display` rendering of a `GameVersion` with major `m` and minor
`n` is the decimal string `"m.n"`; in particular `(1,5)` renders as `"1.5"`. -/
theorem C8_gameVersion_display (m n : Nat) :
    GameVersion.display ⟨m, n⟩ = natToString m ++ "." ++ natToString n ∧
    GameVersion.display ⟨1, 5⟩ = "1.5" := by
  constructor
  · rfl
  · show natToString 1 ++ "." ++ natToString 5 = "1.5"
    unfold natToString
    rw [natDigits_small (by omega), natDigits_small (by omega)]
    decide

/-- C9: the derived `Default` value of `GameVersion` is `(major 0, minor 0)`,
and it is a minimum of the `GameVersion` ordering (it never compares greater
than any value). -/
theorem C9_default_gameVersion_min :
    GameVersion.default = ⟨0, 0⟩ ∧
    (∀ v : GameVersion, GameVersion.cmp GameVersion.default v ≠ .gt) := by
  refine ⟨rfl, ?_⟩
  intro v h
  unfold GameVersion.default GameVersion.cmp at h
  rcases hc : compare (0 : Nat) v.major with _ | _ | _ <;> rw [hc] at h
  · simp [Ordering.then] at h
  · simp [Ordering.then] at h
    have := Nat.compare_eq_gt.1 h
    omega
  · have := Nat.compare_eq_gt.1 hc
    omega

/-- C10: two `Header` values are equal exactly when all seven fields are
equal, the derived comparison reflects equality, is antisymmetric under
`swap`, has a transitive strict part, and orders headers lexicographically by
the fields in declaration order (`api_spec`, `game_version`, `packet_type`,
`session_uid`, `session_time`, `frame_identifier`, `player_car_index`). -/
theorem C10_header_eq_and_order :
    (∀ a b : Header, a = b ↔
      (a.api_spec = b.api_spec ∧ a.game_version = b.game_version ∧
        a.packet_type = b.packet_type ∧ a.session_uid = b.session_uid ∧
        a.session_time = b.session_time ∧
        a.frame_identifier = b.frame_identifier ∧
        a.player_car_index = b.player_car_index)) ∧
    (∀ a b : Header, Header.cmp a b = .eq ↔ a = b) ∧
    (∀ a b : Header, (Header.cmp a b).swap = Header.cmp b a) ∧
    (∀ a b c : Header, Header.cmp a b = .lt → Header.cmp b c = .lt →
      Header.cmp a c = .lt) ∧
    (∀ a b : Header, Header.cmp a b = .lt ↔
      (ApiSpec.cmp a.api_spec b.api_spec = .lt ∨
        (a.api_spec = b.api_spec ∧
          (optCmp GameVersion.cmp a.game_version b.game_version = .lt ∨
            (a.game_version = b.game_version ∧
              (PacketType.cmp a.packet_type b.packet_type = .lt ∨
                (a.packet_type = b.packet_type ∧
                  (compare a.session_uid b.session_uid = .lt ∨
                    (a.session_uid = b.session_uid ∧
                      (Duration.cmp a.session_time b.session_time = .lt ∨
                        (a.session_time = b.session_time ∧
                          (compare a.frame_identifier b.frame_identifier = .lt ∨
                            (a.frame_identifier = b.frame_identifier ∧
                              compare a.player_car_index b.player_car_index =
                                .lt))))))))))))) := by
  refine ⟨?_, header_cmp_eqIff, header_cmp_swap, header_cmp_ltTrans, ?_⟩
  · intro a b
    cases a
    cases b
    simp
  · intro a b
    unfold Header.cmp
    rw [orderingThenEqLt, orderingThenEqLt, orderingThenEqLt, orderingThenEqLt,
      orderingThenEqLt, orderingThenEqLt]
    rw [apiSpec_cmp_eqIff a.api_spec b.api_spec,
      optCmp_eqIff gameVersion_cmp_eqIff a.game_version b.game_version,
      packetType_cmp_eqIff a.packet_type b.packet_type,
      natCompare_eqIff a.session_uid b.session_uid,
      duration_cmp_eqIff a.session_time b.session_time,
      natCompare_eqIff a.frame_identifier b.frame_identifier]

theorem C10_witness :
    Header.cmp ⟨.Nineteen, none, .Event, 0, ⟨0, 0⟩, 0, 0⟩
        ⟨.Nineteen, none, .Event, 2, ⟨0, 0⟩, 0, 0⟩ = .lt :=
  C10_header_eq_and_order.2.2.2.1
    ⟨.Nineteen, none, .Event, 0, ⟨0, 0⟩, 0, 0⟩
    ⟨.Nineteen, none, .Event, 1, ⟨0, 0⟩, 0, 0⟩
    ⟨.Nineteen, none, .Event, 2, ⟨0, 0⟩, 0, 0⟩
    (by decide) (by decide)

theorem C1_witness :
    ((ensure_packet_size 1 ⟨[0], 0⟩).1 = Except.ok () ↔
      1 ≤ ByteCursor.remaining ⟨[0], 0⟩) ∧
    ((∃ err, (ensure_packet_size 1 ⟨[0], 0⟩).1 = Except.error err) ↔
      ByteCursor.remaining ⟨[0], 0⟩ < 1) :=
  C1_ensure_packet_size_success_iff 1 ⟨[0], 0⟩

theorem C2_witness :
    (ensure_packet_size 3 ⟨[0], 0⟩).2 = ⟨[0], 0⟩ :=
  C2_ensure_packet_size_frame 3 ⟨[0], 0⟩

theorem C7_witness :
    (Header.mk .Nineteen none .Event 0 ⟨4, 9⟩ 0 0).session_time = ⟨4, 9⟩ :=
  C7_session_time_precision.1 .Nineteen none .Event 0 ⟨4, 9⟩ 0 0

theorem C8_witness :
    GameVersion.display ⟨1, 5⟩ = natToString 1 ++ "." ++ natToString 5 ∧
    GameVersion.display ⟨1, 5⟩ = "1.5" :=
  C8_gameVersion_display 1 5

theorem C9_witness :
    GameVersion.cmp GameVersion.default ⟨3, 7⟩ ≠ .gt :=
  C9_default_gameVersion_min.2 ⟨3, 7⟩

end F1
